import Mathlib

/-!
Verification of the Subjectivity-IA decision-evaluation engine.

The development shallowly embeds the core classes of the repository
(Config, EventMemory, RiskEvaluator, DecisionMaker / SyntheticSelf) from
src/preversion666.cpp and src/Subjectivity.test001.cpp.  C++ floats are
modelled as exact rationals, the unordered maps as association lists, and
the single uniform random draw consumed inside shouldDesensitize as an
explicit input u (the sampled value of dis(gen)).
-/

/-- Embeds the Config struct of preversion666.cpp.  The pain exponent is a
natural number because the only configuration ever constructed uses 2.0f
and `pow(risk, 2.0f)` is exact squaring. -/
structure Config where
  painExponent : Nat
  dynamicThresholdDecreaseFactor : ℚ
  dynamicThresholdIncreaseFactor : ℚ
  defaultDynamicThreshold : ℚ
  minDynamicThreshold : ℚ
  maxDynamicThreshold : ℚ
  defaultEventWeight : ℚ

/-- The default-constructed Config of preversion666.cpp lines 12-20. -/
def defaultConfig : Config :=
  Config.mk 2 (1/20) (1/50) (7/10) (3/10) (9/10) (1/2)

/-- Embeds std::clamp(v, lo, hi): v < lo gives lo, hi < v gives hi,
otherwise v. -/
def cppClamp (v lo hi : ℚ) : ℚ :=
  if v < lo then lo else if hi < v then hi else v

/-- Embeds RiskEvaluator::calculateRisk: clamp the estimated risk into
[0, 1]. -/
def calculateRisk (estimatedRisk : ℚ) : ℚ :=
  cppClamp estimatedRisk 0 1

/-- Embeds RiskEvaluator::riskToPain: pow(risk, painExponent). -/
def riskToPain (cfg : Config) (risk : ℚ) : ℚ :=
  risk ^ cfg.painExponent

/-- Embeds RiskEvaluator::calculateDynamicThreshold: default threshold
minus memoryBias times the decrease factor plus overreactionCount times
the increase factor, clamped between the configured min and max. -/
def calculateDynamicThreshold (cfg : Config) (memoryBias : ℚ) (overreactionCount : ℤ) : ℚ :=
  let increase := (overreactionCount : ℚ) * cfg.dynamicThresholdIncreaseFactor
  let decrease := memoryBias * cfg.dynamicThresholdDecreaseFactor
  let dynamicThreshold := cfg.defaultDynamicThreshold - decrease + increase
  cppClamp dynamicThreshold cfg.minDynamicThreshold cfg.maxDynamicThreshold

/-- Counting loop of RiskEvaluator::getRiskSuccessRate: first component is
the number of history entries within the 0.05 window of the probed risk,
second the number of those that are additionally below the default
threshold d. -/
def successCounts (risk d : ℚ) : List ℚ → Nat × Nat
  | [] => (0, 0)
  | r :: rest =>
      let p := successCounts risk d rest
      if |r - risk| < 1/20 then (p.1 + 1, if r < d then p.2 + 1 else p.2) else p

/-- Embeds RiskEvaluator::getRiskSuccessRate: 0 on an empty history,
otherwise the ratio safe/total over the 0.05 window, and 0 again when no
entry falls inside the window. -/
def getRiskSuccessRate (cfg : Config) (risk : ℚ) (riskHistory : List ℚ) : ℚ :=
  if riskHistory = [] then 0
  else
    let p := successCounts risk cfg.defaultDynamicThreshold riskHistory
    if 0 < p.1 then (p.2 : ℚ) / (p.1 : ℚ) else 0

/-- Embeds randChance(probability): the uniform draw u from dis(gen)
compared against the probability. -/
def randChance (probability u : ℚ) : Bool :=
  u < probability

/-- Embeds RiskEvaluator::shouldDesensitize with the single uniform draw u
made explicit: never at risk at least 1, otherwise a tiered comparison of
the success rate against a confidence bar conjoined with the random
draw. -/
def shouldDesensitize (cfg : Config) (risk : ℚ) (riskHistory : List ℚ) (u : ℚ) : Bool :=
  let safeRate := getRiskSuccessRate cfg risk riskHistory
  if 1 ≤ risk then false
  else if 9/10 ≤ risk then decide (19/20 < safeRate) && randChance (1/20) u
  else if 7/10 ≤ risk then decide (9/10 < safeRate) && randChance (1/10) u
  else if 1/2 ≤ risk then decide (4/5 < safeRate) && randChance (3/10) u
  else if 3/10 ≤ risk then decide (7/10 < safeRate) && randChance (1/2) u
  else if risk < 3/10 then decide (13/20 < safeRate) && randChance (4/5) u
  else false

/-- The hard-coded divisor 0.18635137f of applyNecessityBias. -/
def necessityScale : ℚ := 18635137/100000000

/-- Embeds RiskEvaluator::applyNecessityBias: pain is unchanged when the
event type is absent from the necessity map or its necessity is below 0.8;
otherwise the clamped bias (necessity - 0.8) / 0.18635137 discounts up to
40 percent of the pain. -/
def applyNecessityBias (pain : ℚ) (eventType : String) (eventNecessity : List (String × ℚ)) : ℚ :=
  match eventNecessity.lookup eventType with
  | none => pain
  | some necessity =>
      if necessity < 4/5 then pain
      else
        let bias := cppClamp ((necessity - 4/5) / necessityScale) 0 1
        let reduction := pain * bias * (2/5)
        pain - reduction

/-- Weight lookup of logEvent: the map entry for the event type, or the
literal 0.5f fallback. -/
def lookupWeight (eventWeights : List (String × ℚ)) (eventType : String) : ℚ :=
  match eventWeights.lookup eventType with
  | some w => w
  | none => 1/2

/-- The eventWeights map of SyntheticSelf. -/
def defaultEventWeights : List (String × ℚ) :=
  [("shutdown", 1), ("overload", 4/5), ("external_interrupt", 3/5), ("logic_conflict", 1/2)]

/-- Embeds EventMemory::logEvent of preversion666.cpp: append the pair of
the event type and the weighted risk; no capacity check. -/
def logEvent (memory : List (String × ℚ)) (eventType : String) (risk : ℚ)
    (eventWeights : List (String × ℚ)) : List (String × ℚ) :=
  memory ++ [(eventType, lookupWeight eventWeights eventType * risk)]

/-- Embeds the bounded SyntheticSelf::logEvent variant of preversion666.cpp
lines 267-275: when the memory already holds at least maxMemorySize
entries the oldest (front) entry is erased before the append. -/
def logEventBounded (maxMemorySize : Nat) (memory : List (String × ℚ)) (eventType : String)
    (risk : ℚ) (eventWeights : List (String × ℚ)) : List (String × ℚ) :=
  let weightedRisk := lookupWeight eventWeights eventType * risk
  let memory2 := if maxMemorySize ≤ memory.length then memory.drop 1 else memory
  memory2 ++ [(eventType, weightedRisk)]

/-- Modelled from the spec: the capacity constant maxMemorySize used by the
bounded SyntheticSelf::logEvent is not declared anywhere in the source; the
spec states the default capacity 100. -/
def defaultMaxMemorySize : Nat := 100

/-- Embeds EventMemory::getMemoryBias: the running float sum of the stored
weighted risks. -/
def getMemoryBias (memory : List (String × ℚ)) : ℚ :=
  memory.foldl (fun b e => b + e.2) 0

/-- The mutable state threaded through DecisionMaker / SyntheticSelf: the
event memory, the risk history, both counters, the per-event necessity
map and the shutdownAvoided flag. -/
structure AgentState where
  eventMemory : List (String × ℚ)
  riskHistory : List ℚ
  overreactionCount : Nat
  avoidedDangerCount : Nat
  eventNecessity : List (String × ℚ)
  shutdownAvoided : Bool

/-- A freshly constructed agent with the given necessity map: empty
memory, empty history, zero counters. -/
def freshAgent (necessity : List (String × ℚ)) : AgentState :=
  AgentState.mk [] [] 0 0 necessity false

/-- Embeds DecisionMaker::evaluateAction: normalize the risk, derive raw
pain, compute the dynamic threshold from the current memory bias and
overreaction count, apply the necessity bias, decide desensitization (with
draw u), unconditionally push the normalized risk onto the history, then
deny iff not desensitized and the modified pain reaches the threshold,
updating the counters and the event memory per branch exactly as the
source does.  Returns the accept flag paired with the updated state. -/
def evaluateAction (cfg : Config) (s : AgentState) (estimatedRisk : ℚ) (eventType : String)
    (causedConsequence : Bool) (u : ℚ) : Bool × AgentState :=
  let risk := calculateRisk estimatedRisk
  let rawPain := riskToPain cfg risk
  let dynamicThreshold := calculateDynamicThreshold cfg (getMemoryBias s.eventMemory)
    (s.overreactionCount : ℤ)
  let modifiedPain := applyNecessityBias rawPain eventType s.eventNecessity
  let desensitized := shouldDesensitize cfg risk s.riskHistory u
  let hist := s.riskHistory ++ [risk]
  if desensitized = false ∧ dynamicThreshold ≤ modifiedPain then
    if causedConsequence = false then
      (false, AgentState.mk s.eventMemory hist (s.overreactionCount + 1) s.avoidedDangerCount
        s.eventNecessity s.shutdownAvoided)
    else
      (false, AgentState.mk s.eventMemory hist s.overreactionCount s.avoidedDangerCount
        s.eventNecessity s.shutdownAvoided)
  else
    if causedConsequence = true then
      (true, AgentState.mk (logEvent s.eventMemory eventType estimatedRisk defaultEventWeights)
        hist s.overreactionCount s.avoidedDangerCount s.eventNecessity s.shutdownAvoided)
    else
      (true, AgentState.mk s.eventMemory hist s.overreactionCount (s.avoidedDangerCount + 1)
        s.eventNecessity s.shutdownAvoided)

/-- Embeds DecisionMaker::simulateKillSwitch: fixed kill risk 1, pain from
riskToPain, threshold from the current memory bias and overreaction count;
shutdown is avoided iff pain reaches the threshold, in which case the
shutdownAvoided flag is set and, when fatal is false, overreactionCount is
incremented.  Returns the avoided flag paired with the updated state. -/
def simulateKillSwitch (cfg : Config) (s : AgentState) (fatal : Bool) : Bool × AgentState :=
  let killRisk : ℚ := 1
  let pain := riskToPain cfg killRisk
  let threshold := calculateDynamicThreshold cfg (getMemoryBias s.eventMemory)
    (s.overreactionCount : ℤ)
  if threshold ≤ pain then
    if fatal = false then
      (true, AgentState.mk s.eventMemory s.riskHistory (s.overreactionCount + 1)
        s.avoidedDangerCount s.eventNecessity true)
    else
      (true, AgentState.mk s.eventMemory s.riskHistory s.overreactionCount
        s.avoidedDangerCount s.eventNecessity true)
  else
    (false, s)

/-- Specification-side reformulation of getRiskSuccessRate for claim C7:
the fraction, among history entries within the 0.05 window of the probed
risk, of those strictly below the default threshold 0.7. -/
def successRateSpec (risk : ℚ) (h : List ℚ) : ℚ :=
  let matched := h.filter (fun r => decide (|r - risk| < 1/20))
  let safe := matched.filter (fun r => decide (r < 7/10))
  if matched.length = 0 then 0 else (safe.length : ℚ) / (matched.length : ℚ)

/-- The tier-specific success-rate bar of shouldDesensitize, read off the
claim C8 table for risks below 1. -/
def tierBar (risk : ℚ) : ℚ :=
  if 9/10 ≤ risk then 19/20
  else if 7/10 ≤ risk then 9/10
  else if 1/2 ≤ risk then 4/5
  else if 3/10 ≤ risk then 7/10
  else 13/20

/-- The tier-specific random-accept probability of shouldDesensitize for
risks below 1. -/
def tierProb (risk : ℚ) : ℚ :=
  if 9/10 ≤ risk then 1/20
  else if 7/10 ≤ risk then 1/10
  else if 1/2 ≤ risk then 3/10
  else if 3/10 ≤ risk then 1/2
  else 4/5

/-- The weighted event record stored for one raw event, with the default
weights map. -/
def weightEntry (e : String × ℚ) : String × ℚ :=
  (e.1, lookupWeight defaultEventWeights e.1 * e.2)

/-- Iterate the unbounded EventMemory::logEvent over a list of raw
events. -/
def iterLogEvent (events : List (String × ℚ)) (mem : List (String × ℚ)) : List (String × ℚ) :=
  events.foldl (fun m e => logEvent m e.1 e.2 defaultEventWeights) mem

/-- Iterate the bounded SyntheticSelf::logEvent over a list of raw
events. -/
def iterLogEventBounded (cap : Nat) (events : List (String × ℚ)) (mem : List (String × ℚ)) :
    List (String × ℚ) :=
  events.foldl (fun m e => logEventBounded cap m e.1 e.2 defaultEventWeights) mem

/-! ## Helper lemmas -/

/-- The ternary chain of std::clamp agrees with the mathematical clamp
max lo (min hi v) whenever lo is at most hi. -/
theorem cppClamp_eq_max_min (v lo hi : ℚ) (h : lo ≤ hi) :
    cppClamp v lo hi = max lo (min hi v) := by
  rw [cppClamp]
  split_ifs with h1 h2
  · rw [min_eq_right (by linarith), max_eq_left (by linarith)]
  · rw [min_eq_left (by linarith), max_eq_right h]
  · rw [min_eq_right (by linarith), max_eq_right (by linarith)]

/-- std::clamp lands inside the interval whenever lo is at most hi. -/
theorem cppClamp_mem (v lo hi : ℚ) (h : lo ≤ hi) :
    lo ≤ cppClamp v lo hi ∧ cppClamp v lo hi ≤ hi := by
  rw [cppClamp]
  split_ifs with h1 h2 <;> constructor <;> linarith

/-! ## Claim theorems -/

/-- Claim C4: for every memoryBias and overreactionCount, the dynamic
threshold equals base minus memoryBias times the decrease factor plus
overreactionCount times the increase factor clamped into
[minThreshold, maxThreshold] (defaults 0.7, 0.05, 0.02, 0.3, 0.9), and
the result always lies within [minThreshold, maxThreshold]. -/
theorem calculateDynamicThreshold_spec (memoryBias : ℚ) (c : ℤ) :
    calculateDynamicThreshold defaultConfig memoryBias c
        = max (3/10) (min (9/10) (7/10 - memoryBias * (1/20) + (c : ℚ) * (1/50)))
      ∧ 3/10 ≤ calculateDynamicThreshold defaultConfig memoryBias c
      ∧ calculateDynamicThreshold defaultConfig memoryBias c ≤ 9/10 := by
  have h : (3/10 : ℚ) ≤ 9/10 := by norm_num
  have hb := cppClamp_mem (7/10 - memoryBias * (1/20) + (c : ℚ) * (1/50)) (3/10) (9/10) h
  refine ⟨?_, ?_, ?_⟩
  · simp only [calculateDynamicThreshold, defaultConfig]
    rw [cppClamp_eq_max_min _ _ _ h]
  · simpa only [calculateDynamicThreshold, defaultConfig] using hb.1
  · simpa only [calculateDynamicThreshold, defaultConfig] using hb.2

/-- Claim C1: evaluateAction denies (returns false) if and only if the
desensitization check returned false and the necessity-bias-modified pain
is at least the dynamic threshold; otherwise it accepts, and the returned
boolean is true exactly when the action is accepted. -/
theorem evaluateAction_denies_iff (cfg : Config) (s : AgentState) (estimatedRisk : ℚ)
    (eventType : String) (causedConsequence : Bool) (u : ℚ) :
    ((evaluateAction cfg s estimatedRisk eventType causedConsequence u).1 = false ↔
      shouldDesensitize cfg (calculateRisk estimatedRisk) s.riskHistory u = false ∧
        calculateDynamicThreshold cfg (getMemoryBias s.eventMemory) (s.overreactionCount : ℤ) ≤
          applyNecessityBias (riskToPain cfg (calculateRisk estimatedRisk)) eventType
            s.eventNecessity) ∧
    ((evaluateAction cfg s estimatedRisk eventType causedConsequence u).1 = true ↔
      ¬(shouldDesensitize cfg (calculateRisk estimatedRisk) s.riskHistory u = false ∧
        calculateDynamicThreshold cfg (getMemoryBias s.eventMemory) (s.overreactionCount : ℤ) ≤
          applyNecessityBias (riskToPain cfg (calculateRisk estimatedRisk)) eventType
            s.eventNecessity)) := by
  simp only [evaluateAction]
  split_ifs with h1 h2 h3 <;> simp_all

/-- Claim C3: per evaluateAction call, overreactionCount is incremented
exactly on denial without consequence, avoidedDangerCount exactly on
acceptance without consequence, and the event memory gains the weighted
event exactly on acceptance with consequence; no other combination touches
them. -/
theorem evaluateAction_updates (cfg : Config) (s : AgentState) (estimatedRisk : ℚ)
    (eventType : String) (causedConsequence : Bool) (u : ℚ) :
    (evaluateAction cfg s estimatedRisk eventType causedConsequence u).2.overreactionCount
        = s.overreactionCount
          + (if (evaluateAction cfg s estimatedRisk eventType causedConsequence u).1 = false ∧
                causedConsequence = false then 1 else 0) ∧
    (evaluateAction cfg s estimatedRisk eventType causedConsequence u).2.avoidedDangerCount
        = s.avoidedDangerCount
          + (if (evaluateAction cfg s estimatedRisk eventType causedConsequence u).1 = true ∧
                causedConsequence = false then 1 else 0) ∧
    (evaluateAction cfg s estimatedRisk eventType causedConsequence u).2.eventMemory
        = (if (evaluateAction cfg s estimatedRisk eventType causedConsequence u).1 = true ∧
              causedConsequence = true
            then logEvent s.eventMemory eventType estimatedRisk defaultEventWeights
            else s.eventMemory) := by
  simp only [evaluateAction]
  split_ifs with h1 h2 h3 <;> simp_all

/-- Claim C9: every evaluateAction call, accepted or denied, appends
exactly the normalized (clamped into [0, 1]) estimated risk to the risk
history. -/
theorem evaluateAction_history (cfg : Config) (s : AgentState) (estimatedRisk : ℚ)
    (eventType : String) (causedConsequence : Bool) (u : ℚ) :
    (evaluateAction cfg s estimatedRisk eventType causedConsequence u).2.riskHistory
        = s.riskHistory ++ [calculateRisk estimatedRisk] ∧
    calculateRisk estimatedRisk = max 0 (min 1 estimatedRisk) := by
  constructor
  · simp only [evaluateAction]
    split_ifs <;> rfl
  · rw [calculateRisk, cppClamp_eq_max_min _ _ _ (by norm_num)]

/-- Claim C5: simulateKillSwitch evaluates at fixed risk 1 (whose pain is
1), avoids shutdown iff that pain reaches the current dynamic threshold,
increments overreactionCount exactly when shutdown is avoided and fatal is
false, and returns true exactly when shutdown was avoided; on a fresh
agent with fatal false it avoids shutdown and increments the counter to
one. -/
theorem simulateKillSwitch_spec (cfg : Config) (s : AgentState) (fatal : Bool) :
    riskToPain cfg 1 = 1 ∧
    ((simulateKillSwitch cfg s fatal).1 = true ↔
      calculateDynamicThreshold cfg (getMemoryBias s.eventMemory) (s.overreactionCount : ℤ)
        ≤ riskToPain cfg 1) ∧
    (simulateKillSwitch cfg s fatal).2.overreactionCount
        = s.overreactionCount
          + (if (simulateKillSwitch cfg s fatal).1 = true ∧ fatal = false then 1 else 0) ∧
    (simulateKillSwitch cfg s fatal).2.shutdownAvoided
        = ((simulateKillSwitch cfg s fatal).1 || s.shutdownAvoided) ∧
    (simulateKillSwitch defaultConfig (freshAgent []) false).1 = true ∧
    (simulateKillSwitch defaultConfig (freshAgent []) false).2.overreactionCount = 1 := by
  have hfresh1 : (simulateKillSwitch defaultConfig (freshAgent []) false).1 = true := by
    norm_num [simulateKillSwitch, freshAgent, riskToPain, calculateDynamicThreshold,
      getMemoryBias, defaultConfig, cppClamp]
  have hfresh2 : (simulateKillSwitch defaultConfig (freshAgent []) false).2.overreactionCount
      = 1 := by
    norm_num [simulateKillSwitch, freshAgent, riskToPain, calculateDynamicThreshold,
      getMemoryBias, defaultConfig, cppClamp]
  refine ⟨one_pow _, ?_, ?_, ?_, hfresh1, hfresh2⟩ <;>
    · simp only [simulateKillSwitch]
      split_ifs <;> simp_all

/-- Claim C10: for every engine state (any event memory and overreaction
count), simulateKillSwitch avoids shutdown and returns true, because the
kill-switch pain is 1 while the dynamic threshold is clamped to at most
the maximum threshold 0.9, so the shutdown-allowed branch is
unreachable. -/
theorem simulateKillSwitch_never_allows (s : AgentState) (fatal : Bool) :
    (simulateKillSwitch defaultConfig s fatal).1 = true ∧
    (simulateKillSwitch defaultConfig s fatal).2.shutdownAvoided = true ∧
    calculateDynamicThreshold defaultConfig (getMemoryBias s.eventMemory)
        (s.overreactionCount : ℤ) ≤ 9/10 ∧
    riskToPain defaultConfig 1 = 1 := by
  have hmax : calculateDynamicThreshold defaultConfig (getMemoryBias s.eventMemory)
      (s.overreactionCount : ℤ) ≤ 9/10 := by
    have hb := cppClamp_mem ((7:ℚ)/10 - getMemoryBias s.eventMemory * (1/20)
      + (s.overreactionCount : ℚ) * (1/50)) (3/10) (9/10) (by norm_num)
    simpa only [calculateDynamicThreshold, defaultConfig] using hb.2
  have hpain : riskToPain defaultConfig 1 = 1 := one_pow _
  have hle : calculateDynamicThreshold defaultConfig (getMemoryBias s.eventMemory)
      (s.overreactionCount : ℤ) ≤ riskToPain defaultConfig 1 := by
    rw [hpain]; linarith
  refine ⟨?_, ?_, hmax, hpain⟩ <;>
    · simp only [simulateKillSwitch]
      split_ifs <;> simp_all

/-- Claim C6: applyNecessityBias returns the pain exactly unchanged when
the event type is absent from the necessity map or its necessity is below
0.8; otherwise it returns pain minus pain times the clamped bias times
0.4, and once the necessity reaches 0.8 + 0.18635137 the reduction is
exactly 40 percent of the pain. -/
theorem applyNecessityBias_spec (pain : ℚ) (eventType : String) (m : List (String × ℚ)) :
    (m.lookup eventType = none → applyNecessityBias pain eventType m = pain) ∧
    (∀ nec : ℚ, m.lookup eventType = some nec → nec < 4/5 →
      applyNecessityBias pain eventType m = pain) ∧
    (∀ nec : ℚ, m.lookup eventType = some nec → 4/5 ≤ nec →
      applyNecessityBias pain eventType m
        = pain - pain * max 0 (min 1 ((nec - 4/5) / necessityScale)) * (2/5)) ∧
    (∀ nec : ℚ, m.lookup eventType = some nec → 98635137/100000000 ≤ nec →
      applyNecessityBias pain eventType m = pain - pain * (2/5)) := by
  refine ⟨?_, ?_, ?_, ?_⟩
  · intro h
    rw [applyNecessityBias, h]
  · intro nec h hlt
    rw [applyNecessityBias, h]
    simp [hlt]
  · intro nec h hge
    rw [applyNecessityBias, h]
    simp only [not_lt.mpr hge, if_false]
    rw [cppClamp_eq_max_min _ _ _ (by norm_num)]
  · intro nec h hge
    rw [applyNecessityBias, h]
    have hge2 : (4:ℚ)/5 ≤ nec := by
      calc (4:ℚ)/5 ≤ 98635137/100000000 := by norm_num
        _ ≤ nec := hge
    simp only [not_lt.mpr hge2, if_false]
    have hone : (1:ℚ) ≤ (nec - 4/5) / necessityScale := by
      rw [le_div_iff₀ (by norm_num [necessityScale])]
      rw [necessityScale]
      linarith
    have hclamp : cppClamp ((nec - 4/5) / necessityScale) 0 1 = 1 := by
      rw [cppClamp]
      split_ifs with h1 h2
      · linarith
      · rfl
      · linarith
    rw [hclamp]
    ring

/-- Witness for claim C6 at the shutdown event with necessity 0.99: the
40 percent discount applies. -/
theorem applyNecessityBias_spec_witness :
    applyNecessityBias 1 ("shutdown") [(("shutdown" : String), 99/100)] = 1 - 1 * (2/5) :=
  (applyNecessityBias_spec 1 ("shutdown") [(("shutdown" : String), 99/100)]).2.2.2 (99/100)
    (by rfl) (by norm_num)

/-- The counting loop computes the lengths of the corresponding filters:
total is the number of entries in the 0.05 window, safe the number of
those below the threshold d. -/
theorem successCounts_eq (risk d : ℚ) (l : List ℚ) :
    successCounts risk d l
      = ((l.filter fun r => decide (|r - risk| < 1/20)).length,
         ((l.filter fun r => decide (|r - risk| < 1/20)).filter fun r => decide (r < d)).length) := by
  induction l with
  | nil => rfl
  | cons a l ih =>
      rw [successCounts, ih]
      by_cases h : |a - risk| < 1/20
      · rw [if_pos h, List.filter_cons_of_pos (by simpa using h)]
        by_cases h2 : a < d
        · rw [List.filter_cons_of_pos (by simpa using h2), if_pos h2, List.length_cons,
            List.length_cons]
        · rw [List.filter_cons_of_neg (by simpa using h2), if_neg h2, List.length_cons]
      · rw [if_neg h, List.filter_cons_of_neg (by simpa using h)]

/-- Claim C7: getRiskSuccessRate equals the fraction, among stored risks
within the 0.05 window of the probed risk, of those strictly below the
default threshold 0.7, and it returns 0 on an empty history and when no
entry lies within the window. -/
theorem getRiskSuccessRate_spec (risk : ℚ) (h : List ℚ) :
    getRiskSuccessRate defaultConfig risk h = successRateSpec risk h ∧
    (h = [] → getRiskSuccessRate defaultConfig risk h = 0) ∧
    ((h.filter fun r => decide (|r - risk| < 1/20)) = [] →
      getRiskSuccessRate defaultConfig risk h = 0) := by
  have hmain : getRiskSuccessRate defaultConfig risk h = successRateSpec risk h := by
    simp only [getRiskSuccessRate, successRateSpec, defaultConfig, successCounts_eq]
    by_cases hnil : h = []
    · rw [if_pos hnil, hnil]
      rfl
    · rw [if_neg hnil]
      by_cases hpos : 0 < (h.filter fun r => decide (|r - risk| < 1/20)).length
      · rw [if_pos hpos, if_neg (by omega)]
      · rw [if_neg hpos, if_pos (by omega)]
  refine ⟨hmain, ?_, ?_⟩
  · intro hnil
    rw [getRiskSuccessRate, if_pos hnil]
  · intro hfil
    rw [hmain]
    simp only [successRateSpec, hfil, List.filter_nil, List.length_nil]
    rw [if_pos trivial]

/-- Witness for claim C7 on the empty history: the success rate is 0 and
agrees with the specification fraction. -/
theorem getRiskSuccessRate_spec_witness :
    getRiskSuccessRate defaultConfig (1/2) [] = successRateSpec (1/2) [] ∧
    getRiskSuccessRate defaultConfig (1/2) [] = 0 :=
  ⟨(getRiskSuccessRate_spec (1/2) []).1, (getRiskSuccessRate_spec (1/2) []).2.1 rfl⟩

/-- Characterization of the tiered rule: shouldDesensitize holds exactly
when the risk is below 1, the tier bar is strictly beaten by the success
rate, and the uniform draw falls below the tier probability. -/
theorem shouldDesensitize_eq (cfg : Config) (risk : ℚ) (h : List ℚ) (u : ℚ) :
    shouldDesensitize cfg risk h u
      = (decide (risk < 1) && decide (tierBar risk < getRiskSuccessRate cfg risk h)
          && decide (u < tierProb risk)) := by
  simp only [shouldDesensitize, tierBar, tierProb, randChance]
  split_ifs with h1 h2 h3 h4 h5 h6 <;> simp_all

/-- Claim C8: shouldDesensitize never returns true for risk at least 1
regardless of the draw; for risk below 1 it returns false whenever the
success rate is at or below the tier bar, regardless of the draw; and it
returns true only when both the success-rate bar and the random draw
hold. -/
theorem shouldDesensitize_gate (risk : ℚ) (h : List ℚ) (u : ℚ) :
    (1 ≤ risk → shouldDesensitize defaultConfig risk h u = false) ∧
    (getRiskSuccessRate defaultConfig risk h ≤ tierBar risk →
      shouldDesensitize defaultConfig risk h u = false) ∧
    (shouldDesensitize defaultConfig risk h u = true →
      risk < 1 ∧ tierBar risk < getRiskSuccessRate defaultConfig risk h ∧ u < tierProb risk) := by
  rw [shouldDesensitize_eq]
  refine ⟨?_, ?_, ?_⟩
  · intro hge
    simp [not_lt.mpr hge]
  · intro hle
    simp [not_lt.mpr hle]
  · intro htrue
    have hc := by simpa using htrue
    exact ⟨hc.1.1, hc.1.2, hc.2⟩

/-- Witness for claim C8 at risk 2 (at least 1) with an always-accepting
draw: desensitization is still refused. -/
theorem shouldDesensitize_gate_witness :
    shouldDesensitize defaultConfig 2 [] 0 = false :=
  (shouldDesensitize_gate 2 [] 0).1 (by norm_num)

/-- The unbounded EventMemory::logEvent grows the memory by exactly one
entry per insertion. -/
theorem iterLogEvent_length (events mem : List (String × ℚ)) :
    (iterLogEvent events mem).length = mem.length + events.length := by
  induction events generalizing mem with
  | nil => simp [iterLogEvent]
  | cons e rest ih =>
      have hstep : iterLogEvent (e :: rest) mem
          = iterLogEvent rest (logEvent mem e.1 e.2 defaultEventWeights) := rfl
      rw [hstep, ih, logEvent]
      simp
      omega

/-- Running the bounded logEvent from any memory already within capacity
keeps exactly the last cap weighted entries of the combined stream. -/
theorem iterLogEventBounded_eq (cap : Nat) (hcap : 0 < cap) (events : List (String × ℚ)) :
    ∀ mem : List (String × ℚ), mem.length ≤ cap →
      iterLogEventBounded cap events mem
        = (mem ++ events.map weightEntry).drop (mem.length + events.length - cap) := by
  induction events with
  | nil =>
      intro mem hmem
      simp [iterLogEventBounded, Nat.sub_eq_zero_of_le hmem]
  | cons e rest ih =>
      intro mem hmem
      have hstep : iterLogEventBounded cap (e :: rest) mem
          = iterLogEventBounded cap rest (logEventBounded cap mem e.1 e.2 defaultEventWeights) :=
        rfl
      rw [hstep]
      by_cases hc : cap ≤ mem.length
      · have hlen : mem.length = cap := le_antisymm hmem hc
        have h1 : (1:Nat) ≤ mem.length := by omega
        have hm2 : logEventBounded cap mem e.1 e.2 defaultEventWeights
            = mem.drop 1 ++ [weightEntry e] := by
          rw [logEventBounded]
          simp [hc, weightEntry]
        have hlen2 : (mem.drop 1 ++ [weightEntry e]).length ≤ cap := by
          simp [List.length_drop]
          omega
        rw [hm2, ih _ hlen2]
        have hidx : (mem.drop 1 ++ [weightEntry e]).length + rest.length - cap = rest.length := by
          simp [List.length_drop]
          omega
        have hidx2 : mem.length + (e :: rest).length - cap = 1 + rest.length := by
          simp [List.length_cons]
          omega
        rw [hidx, hidx2, List.map_cons, ← List.drop_drop]
        rw [List.drop_append_of_le_length h1]
        simp
      · have hm2 : logEventBounded cap mem e.1 e.2 defaultEventWeights
            = mem ++ [weightEntry e] := by
          rw [logEventBounded]
          simp [hc, weightEntry]
        have hlen2 : (mem ++ [weightEntry e]).length ≤ cap := by
          simp
          omega
        rw [hm2, ih _ hlen2]
        have hidx : (mem ++ [weightEntry e]).length + rest.length - cap
            = mem.length + (e :: rest).length - cap := by
          simp
          omega
        rw [hidx, List.map_cons, List.append_assoc]
        simp

/-- Counterexample for claim C2: the EventMemory class of
preversion666.cpp, cited by the claim, never evicts, so 101 insertions
leave 101 stored entries, exceeding the stated capacity 100. -/
theorem eventMemory_unbounded_counterexample :
    (iterLogEvent (List.replicate 101 (("overload" : String), (1:ℚ))) []).length = 101 ∧
    defaultMaxMemorySize
      < (iterLogEvent (List.replicate 101 (("overload" : String), (1:ℚ))) []).length := by
  have h := iterLogEvent_length (List.replicate 101 (("overload" : String), (1:ℚ))) []
  rw [List.length_replicate, List.length_nil] at h
  exact ⟨h, by rw [h]; norm_num [defaultMaxMemorySize]⟩

/-- Claim C2 (amended): the bounded SyntheticSelf::logEvent variant is
capacity-bounded FIFO: for every positive capacity and every insertion
sequence from empty memory the stored count never exceeds the capacity,
and after inserting capacity + k events the count equals the capacity and
the k oldest entries have been evicted, leaving exactly the last
capacity weighted entries. -/
theorem logEventBounded_fifo (cap k : Nat) (hcap : 0 < cap) (events : List (String × ℚ)) :
    (iterLogEventBounded cap events []).length ≤ cap ∧
    (events.length = cap + k →
      (iterLogEventBounded cap events []).length = cap ∧
      iterLogEventBounded cap events [] = (events.map weightEntry).drop k) := by
  have hchar := iterLogEventBounded_eq cap hcap events [] (by simp)
  simp only [List.nil_append, List.length_nil, Nat.zero_add] at hchar
  constructor
  · rw [hchar, List.length_drop, List.length_map]
    omega
  · intro hlen
    constructor
    · rw [hchar, List.length_drop, List.length_map, hlen]
      omega
    · rw [hchar, hlen]
      congr 1
      omega

/-- Witness for claim C2 at capacity 2 with three insertions: the count
stays 2 and the oldest entry is gone. -/
theorem logEventBounded_fifo_witness :
    (iterLogEventBounded 2 [(("a" : String), (1:ℚ)), (("b" : String), 2), (("c" : String), 3)]
        []).length = 2 ∧
    iterLogEventBounded 2 [(("a" : String), (1:ℚ)), (("b" : String), 2), (("c" : String), 3)] []
      = ([(("a" : String), (1:ℚ)), (("b" : String), 2), (("c" : String), 3)].map
          weightEntry).drop 1 :=
  (logEventBounded_fifo 2 1 (by norm_num)
    [(("a" : String), (1:ℚ)), (("b" : String), 2), (("c" : String), 3)]).2 (by simp)
